import Mathlib

/-!
Verification of the onellm fallback / capability-negotiation core.

Shallow embedding of `src/onellm/chat_completion.py` (class `ChatCompletion`)
and the data model of `src/onellm/types/common.py`, with theorems settling the
frozen claims about the specification.

Modelling conventions:
* Python dict-based `Message` / `ContentItem` values become structures whose
  fields are `Option`-valued (absent key = `none`); `msg.get(k, d)` becomes
  `(field).getD d`.
* Machine-level Python failures (`AttributeError` from calling `.lower()` on a
  list, `KeyError` from `msg["content"] +=` when the key is absent) are
  modelled by the embedded operation returning `none`.
* The in-place mutation `msg["content"] += ...` of a caller-owned message dict
  (chat_completion.py line 97) is made explicit: the embedded
  `processCapabilities` additionally returns `origMessages`, the state of the
  caller's original message list after the call (aliasing made visible).
* Python `str.strip` / `str.lower` / substring `in` are modelled by
  executable character-list functions `pyStrip`, `pyLower`, `strContains`.
-/

/-! ## String helpers modelling Python string primitives -/

/-- `charsPrefixOf n h` decides whether the character list `n` is an initial
segment of `h`. -/
def charsPrefixOf : List Char → List Char → Bool
  | [], _ => true
  | _ :: _, [] => false
  | a :: as, b :: bs => a == b && charsPrefixOf as bs

/-- `charsContains h n` decides whether `n` occurs contiguously in `h`
(Python's `n in h` on strings). -/
def charsContains : List Char → List Char → Bool
  | [], needle => charsPrefixOf needle []
  | c :: t, needle => charsPrefixOf needle (c :: t) || charsContains t needle

/-- Python `needle in hay` for strings. -/
def strContains (hay needle : String) : Bool :=
  charsContains hay.data needle.data

/-- Python `str.lower` (restricted to the character-wise lowering that the
inputs in this development exercise). -/
def pyLower (s : String) : String :=
  String.mk (s.data.map Char.toLower)

/-- The whitespace characters stripped by Python's default `str.strip`. -/
def isPySpace (c : Char) : Bool :=
  c == ' ' || c == '\t' || c == '\n' || c == '\r' || c == '\x0b' || c == '\x0c'

/-- Python `str.strip()`: drop leading and trailing whitespace. -/
def pyStrip (s : String) : String :=
  String.mk (((s.data.dropWhile isPySpace).reverse.dropWhile isPySpace).reverse)

/-- Join a list of strings with newline separators (used to state the
"text items joined by newline" property of the spec). -/
def joinNewline : List String → String
  | [] => ""
  | [s] => s
  | s :: t :: r => s ++ "\n" ++ joinNewline (t :: r)

/-! ## Data model (`src/onellm/types/common.py`) -/

/-- A content item of a multi-modal message: a Python dict with optional
`type` and `text` keys (`ContentItem` in types/common.py; the `image_url`
payload carries no information relevant to `_process_capabilities`, which
only inspects `type` and `text`). -/
structure ContentItem where
  type : Option String
  text : Option String
  deriving DecidableEq

/-- The `content` value of a message: a plain string or a list of content
items (`Union[str, List[ContentItem]]` in types/common.py). -/
inductive Content
  | str (s : String)
  | items (l : List ContentItem)
  deriving DecidableEq

/-- A chat message: a Python dict with optional `role` and `content` keys
(the other `Message` fields of types/common.py are never read by the code
under verification). -/
structure Message where
  role : Option String
  content : Option Content
  deriving DecidableEq

/-- A `response_format` value: the code checks `isinstance(rf, dict)` and
reads `rf.get("type")`; any non-dict value is collapsed to `nonDict`. -/
inductive RFValue
  | dict (typ : Option String)
  | nonDict
  deriving DecidableEq

/-- The keyword-argument map passed to `_process_capabilities`: the only key
the code inspects is `response_format`; all other entries are opaque
passthrough parameters. -/
structure Kwargs where
  response_format : Option RFValue
  rest : List (String × String)
  deriving DecidableEq

/-- The capability flags of a provider instance, as read by
`_process_capabilities` (`provider.json_mode_support` etc.). -/
structure Provider where
  json_mode_support : Bool
  streaming_support : Bool
  vision_support : Bool
  audio_input_support : Bool
  deriving DecidableEq

/-- The four capability warnings `_process_capabilities` can emit via
`warnings.warn`, in source order. -/
inductive Warning
  | jsonMode
  | streaming
  | vision
  | audio
  deriving DecidableEq

/-! ## Embedding of `ChatCompletion._process_capabilities`
(chat_completion.py lines 44-218) -/

/-- Content of the system message inserted when none exists
(chat_completion.py line 105). -/
def baseInstr : String := "Please provide your response in valid JSON format."

/-- Text appended in place to an existing system message
(chat_completion.py line 97). -/
def appendInstr : String := " Please provide your response in valid JSON format."

/-- `is_json_mode` (chat_completion.py lines 75-78): `response_format` is a
dict whose `type` is `"json_object"`. -/
def isJsonMode : Option RFValue → Bool
  | some (RFValue.dict t) => t == some "json_object"
  | _ => false

/-- The scan over messages of chat_completion.py lines 91-98 (`for msg in
messages ... break`). Result:
* `none`: the Python code raises (`AttributeError` when the first system
  message's content is a list, `KeyError` on `msg["content"] +=` when the
  content key is absent);
* `some none`: no system message found;
* `some (some msgs')`: a system message was found; `msgs'` is the message
  list after the possible in-place append to that message. -/
def jsonSystemScan : List Message → Option (Option (List Message))
  | [] => some none
  | m :: rest =>
    if m.role == some "system" then
      match m.content with
      | some (Content.str s) =>
        if strContains (pyLower s) "json" then
          some (some (m :: rest))
        else
          some (some ({ m with content := some (Content.str (s ++ appendInstr)) } :: rest))
      | _ => none
    else
      (jsonSystemScan rest).map (Option.map (m :: ·))

/-- JSON-mode handling (chat_completion.py lines 70-107). Returns
`(origMessages, workingMessages, kwargs', warnings)` where `origMessages` is
the caller's list after the call (it differs from the input exactly when the
in-place append of line 97 fired) and `workingMessages` is the list used by
the rest of the method. -/
def jsonPhase (support : Bool) (messages : List Message) (kwargs : Kwargs) :
    Option (List Message × List Message × Kwargs × List Warning) :=
  match kwargs.response_format with
  | none => some (messages, messages, kwargs, [])
  | some rf =>
    if isJsonMode (some rf) && !support then
      match jsonSystemScan messages with
      | none => none
      | some none =>
        some (messages,
              { role := some "system", content := some (Content.str baseInstr) } :: messages,
              { kwargs with response_format := none }, [Warning.jsonMode])
      | some (some msgs') =>
        some (msgs', msgs', { kwargs with response_format := none }, [Warning.jsonMode])
    else
      some (messages, messages, kwargs, [])

/-- Streaming downgrade (chat_completion.py lines 109-117). -/
def streamPhase (support : Bool) (stream : Bool) : Bool × List Warning :=
  if stream && !support then (false, [Warning.streaming]) else (stream, [])

/-- `item.get("type") == "image_url" or item.get("type") == "image"`. -/
def isImageItem (it : ContentItem) : Bool :=
  it.type == some "image_url" || it.type == some "image"

/-- `item.get("type") == "audio_url" or item.get("type") == "audio"`. -/
def isAudioItem (it : ContentItem) : Bool :=
  it.type == some "audio_url" || it.type == some "audio"

/-- Whether a message's content is a list containing an image item
(the scan of chat_completion.py lines 123-132). -/
def msgHasImage (m : Message) : Bool :=
  match m.content with
  | some (Content.items l) => l.any isImageItem
  | _ => false

/-- Whether any message contains image content. -/
def hasImageContent (msgs : List Message) : Bool :=
  msgs.any msgHasImage

/-- Whether a message's content is a list containing an audio item. -/
def msgHasAudio (m : Message) : Bool :=
  match m.content with
  | some (Content.items l) => l.any isAudioItem
  | _ => false

/-- Whether any message contains audio content. -/
def hasAudioContent (msgs : List Message) : Bool :=
  msgs.any msgHasAudio

/-- The text-accumulation loop of chat_completion.py lines 148-151 and
203-206: `text_content += item.get("text", "") + "\n"` over text-typed
items. -/
def textConcat (l : List ContentItem) : String :=
  l.foldl (fun acc it =>
    if it.type == some "text" then acc ++ it.text.getD "" ++ "\n" else acc) ""

/-- The per-message rebuild of the vision-stripping pass (chat_completion.py
lines 144-159): list content is collapsed to its text items (dropped when
`text_content` is falsy, i.e. empty); non-list content is kept unchanged. -/
def visionCollapse (m : Message) : Option Message :=
  match m.content with
  | some (Content.items l) =>
    if textConcat l == "" then none
    else some { m with content := some (Content.str (pyStrip (textConcat l))) }
  | _ => some m

/-- Vision stripping (chat_completion.py lines 119-161). -/
def visionPhase (support : Bool) (msgs : List Message) :
    List Message × List Warning :=
  if support then (msgs, [])
  else if hasImageContent msgs then (msgs.filterMap visionCollapse, [Warning.vision])
  else (msgs, [])

/-- The per-message rebuild of the audio-stripping pass (chat_completion.py
lines 188-214): audio items are filtered out; a non-empty remainder is kept
as list content; otherwise the `elif any(... == "text")` branch would
collapse to text; otherwise the message is dropped. -/
def audioRebuildMsg (m : Message) : Option Message :=
  match m.content with
  | some (Content.items l) =>
    if !(l.filter (fun it => !isAudioItem it)).isEmpty then
      some { m with content := some (Content.items (l.filter (fun it => !isAudioItem it))) }
    else if l.any (fun it => it.type == some "text") then
      if textConcat l == "" then none
      else some { m with content := some (Content.str (pyStrip (textConcat l))) }
    else none
  | _ => some m

/-- Audio stripping (chat_completion.py lines 163-216). -/
def audioPhase (support : Bool) (msgs : List Message) :
    List Message × List Warning :=
  if support then (msgs, [])
  else if hasAudioContent msgs then (msgs.filterMap audioRebuildMsg, [Warning.audio])
  else (msgs, [])

/-- The full result of `_process_capabilities`, with the caller's original
message list after the call made explicit (`origMessages`), and the warnings
emitted in source order. -/
structure ProcResult where
  origMessages : List Message
  messages : List Message
  stream : Bool
  kwargs : Kwargs
  warnings : List Warning
  deriving DecidableEq

/-- `ChatCompletion._process_capabilities` (chat_completion.py lines 44-218):
JSON-mode downgrade, streaming downgrade, vision stripping, audio stripping,
in that order. `none` models the Python call raising. -/
def processCapabilities (provider : Provider) (messages : List Message)
    (stream : Bool) (kwargs : Kwargs) : Option ProcResult :=
  match jsonPhase provider.json_mode_support messages kwargs with
  | none => none
  | some (orig, msgs1, kw1, w1) =>
    some ⟨orig,
          (audioPhase provider.audio_input_support
            (visionPhase provider.vision_support msgs1).1).1,
          (streamPhase provider.streaming_support stream).1,
          kw1,
          w1 ++ (streamPhase provider.streaming_support stream).2
             ++ (visionPhase provider.vision_support msgs1).2
             ++ (audioPhase provider.audio_input_support
                  (visionPhase provider.vision_support msgs1).1).2⟩

/-! ## Facade (`ChatCompletion.create` / `acreate`, chat_completion.py
lines 220-399) -/

/-- The chain-expansion of chat_completion.py lines 277-284 (identical in
`create` and `acreate`): when `retries > 0`, prepend `retries` copies of the
primary model to the fallback list; when `retries == 0`, pass the caller's
fallback list through unchanged. -/
def effectiveFallbackModels (model : String) (fallback_models : Option (List String))
    (retries : Nat) : Option (List String) :=
  if retries > 0 then
    match fallback_models with
    | none => some (List.replicate retries model)
    | some fbs => some (List.replicate retries model ++ fbs)
  else fallback_models

/-- The provider tags registered in the library (`Provider` literal in
types/common.py lines 44-46). -/
def knownProviders : List String :=
  ["openai", "anthropic", "azure", "ollama", "together", "groq"]

/-- Split a character list at every `'/'` (executable model of splitting a
model identifier at its separator). -/
def splitSlash : List Char → List (List Char)
  | [] => [[]]
  | c :: t =>
    if c = '/' then [] :: splitSlash t
    else
      match splitSlash t with
      | [] => [[c]]
      | p :: r => (c :: p) :: r

/-- Modelled from the spec: `validate_model_name` (the `onellm.validators`
module is not under src/). Spec §3: a ModelIdentifier has exactly one
separator splitting it into a known provider tag and a non-empty model
name. -/
def validateModelName (m : String) : Bool :=
  match splitSlash m.data with
  | [p, name] => knownProviders.contains (String.mk p) && !name.isEmpty
  | _ => false

/-- The message roles recognised by the library (`Role` literal in
types/common.py line 33). -/
def knownRoles : List String :=
  ["system", "user", "assistant", "tool", "function"]

/-- Modelled from the spec: a single message is well-formed when it has a
recognised role and present content (spec §4.4 "each message has a
recognized role and well-formed content"). -/
def validMessage (m : Message) : Bool :=
  (match m.role with
   | some r => knownRoles.contains r
   | none => false) && m.content.isSome

/-- Modelled from the spec: `validate_messages` — the list is non-empty and
every message is well-formed (spec §4.4, §7). -/
def validateMessages (msgs : List Message) : Bool :=
  !msgs.isEmpty && msgs.all validMessage

/-- The raw `stream` argument before validation: Python callers may pass a
non-boolean value. -/
inductive PyStream
  | bool (b : Bool)
  | notBool
  deriving DecidableEq

/-- Modelled from the spec: `validate_stream` — the stream flag must be a
boolean (spec §4.4 "stream flag is boolean"). -/
def validateStream : PyStream → Option Bool
  | PyStream.bool b => some b
  | PyStream.notBool => none

/-! ## Orchestrator, modelled from the spec
(`get_provider_with_fallbacks` / the fallback proxy live in
`onellm.providers.base` and `onellm.utils.fallback`, which are not under
src/; spec §4.3 is the authority for their behaviour.) -/

/-- A request as seen by the orchestrator: messages, stream flag and
passthrough parameters. -/
structure Request where
  messages : List Message
  stream : Bool
  kwargs : Kwargs
  deriving DecidableEq

/-- Outcome of invoking one candidate's completion operation. -/
inductive Outcome (α : Type)
  | ok (r : α)
  | retryable (e : String)
  | fatal (e : String)

/-- Modelled from the spec: orchestration errors (spec §4.3, §7) —
`NoCandidatesError` on an empty chain, immediate propagation of a
non-retryable failure, and `AggregateFallbackFailure` carrying the ordered
per-candidate errors when the chain is exhausted. -/
inductive OrchError
  | noCandidates
  | fatalErr (e : String)
  | aggregate (errs : List String)
  deriving DecidableEq

/-- Normalize the original request against one candidate's provider
capabilities (spec §4.3: "normalize request against that provider's
capabilities ... independent per candidate"). -/
def normalizeFor (resolve : String → Provider) (req : Request) (c : String) :
    Option Request :=
  (processCapabilities (resolve c) req.messages req.stream req.kwargs).map
    (fun r => ⟨r.messages, r.stream, r.kwargs⟩)

/-- Modelled from the spec: the candidate loop of the Fallback Orchestrator
(spec §4.3). `attempt i c r` is the outcome of invoking candidate `c` (at
position `i` in the chain) with normalized request `r`. Besides the result
it returns the trace of (candidate, attempted request) pairs in attempt
order. A normalization failure is propagated as a fatal error. -/
def executeAux {α : Type} (resolve : String → Provider)
    (attempt : Nat → String → Request → Outcome α) (req : Request) :
    Nat → List String → List (String × Request) →
    (Except OrchError α) × List (String × Request)
  | _, [], errsAndTrace => (Except.error (OrchError.aggregate []), errsAndTrace.reverse)
  | i, c :: cs, trace =>
    match normalizeFor resolve req c with
    | none => (Except.error (OrchError.fatalErr "normalization error"), trace.reverse)
    | some nreq =>
      match attempt i c nreq with
      | Outcome.ok r => (Except.ok r, (trace.reverse) ++ [(c, nreq)])
      | Outcome.retryable _ => executeAux resolve attempt req (i + 1) cs ((c, nreq) :: trace)
      | Outcome.fatal e => (Except.error (OrchError.fatalErr e), (trace.reverse) ++ [(c, nreq)])

/-- Modelled from the spec: collect the per-candidate retryable errors, in
attempt order, for the aggregate failure (spec §4.3, §7). -/
def collectErrors {α : Type} (resolve : String → Provider)
    (attempt : Nat → String → Request → Outcome α) (req : Request) :
    Nat → List String → List String
  | _, [] => []
  | i, c :: cs =>
    match normalizeFor resolve req c with
    | none => []
    | some nreq =>
      match attempt i c nreq with
      | Outcome.retryable e => e :: collectErrors resolve attempt req (i + 1) cs
      | _ => []

/-- Modelled from the spec: `execute(candidateChain, ...)` (spec §4.3).
Iterates the chain strictly in order, normalizing the original request
freshly against each candidate's capabilities; returns the first success;
raises `noCandidates` on an empty chain; on exhaustion raises the aggregate
error with the ordered per-candidate errors. Also returns the trace of
attempted (candidate, normalized request) pairs. -/
def executeChain {α : Type} (resolve : String → Provider)
    (attempt : Nat → String → Request → Outcome α) (req : Request)
    (chain : List String) : (Except OrchError α) × List (String × Request) :=
  if chain.isEmpty then (Except.error OrchError.noCandidates, [])
  else
    match executeAux resolve attempt req 0 chain [] with
    | (Except.error (OrchError.aggregate _), tr) =>
      (Except.error (OrchError.aggregate (collectErrors resolve attempt req 0 chain)), tr)
    | other => other

/-- Errors raised by the facade: the three validation failures (raised
before any orchestration) and orchestration errors. -/
inductive CreateError
  | invalidModel
  | invalidMessages
  | invalidStream
  | orch (e : OrchError)
  deriving DecidableEq

/-- Whether a facade error is a validation error (raised before any
provider activity). -/
def CreateError.isValidation : CreateError → Bool
  | CreateError.orch _ => false
  | _ => true

/-- `ChatCompletion.create` (chat_completion.py lines 220-315): validation
in source order (model name, messages, stream, then each fallback model),
then chain expansion and — modelled from the spec, since the provider
resolution and fallback proxy are not under src/ — orchestration over the
candidate chain. Returns the result together with the number of provider
completion invocations made. -/
def createF {α : Type} (resolve : String → Provider)
    (attempt : Nat → String → Request → Outcome α)
    (model : String) (messages : List Message) (streamArg : PyStream)
    (fallback_models : Option (List String)) (retries : Nat) (kwargs : Kwargs) :
    (Except CreateError α) × Nat :=
  if !validateModelName model then (Except.error CreateError.invalidModel, 0)
  else if !validateMessages messages then (Except.error CreateError.invalidMessages, 0)
  else
    match validateStream streamArg with
    | none => (Except.error CreateError.invalidStream, 0)
    | some stream =>
      if !((fallback_models.getD []).all validateModelName) then
        (Except.error CreateError.invalidModel, 0)
      else
        let chain := (effectiveFallbackModels model fallback_models retries).getD []
        match executeChain resolve attempt ⟨messages, stream, kwargs⟩ chain with
        | (Except.ok r, tr) => (Except.ok r, tr.length)
        | (Except.error e, tr) => (Except.error (CreateError.orch e), tr.length)

/-- `ChatCompletion.acreate` (chat_completion.py lines 317-399): the
asynchronous entry point performs exactly the same validation, chain
expansion and orchestration as `create`; only the execution mode differs,
which the embedding does not distinguish. -/
def acreateF {α : Type} (resolve : String → Provider)
    (attempt : Nat → String → Request → Outcome α)
    (model : String) (messages : List Message) (streamArg : PyStream)
    (fallback_models : Option (List String)) (retries : Nat) (kwargs : Kwargs) :
    (Except CreateError α) × Nat :=
  createF resolve attempt model messages streamArg fallback_models retries kwargs

/-! ## Auxiliary definitions used in theorem statements -/

/-- The first system message of a list, if any (the message the scan of
chat_completion.py lines 92-98 stops at). -/
def firstSystem (msgs : List Message) : Option Message :=
  msgs.find? (fun m => m.role == some "system")

/-- The texts of the text-typed items of a content list, in order
(`item.get("text", "")` for items with `type == "text"`). -/
def textsOf (l : List ContentItem) : List String :=
  l.filterMap (fun it => if it.type == some "text" then some (it.text.getD "") else none)

/-- Each string followed by a newline, concatenated — the shape produced by
the accumulation loop `text_content += item.get("text","") + "\n"`. -/
def concatNl : List String → String
  | [] => ""
  | s :: r => s ++ "\n" ++ concatNl r

/-- How the vision-stripping pass actually rebuilds one message, stated in
the claim's vocabulary (text items joined by newline and trimmed, message
dropped when no text item remains, non-list content untouched); used to
state the amended claim C5 and compared against the source-derived
`visionCollapse`. -/
def visionClaimRebuild (m : Message) : Option Message :=
  match m.content with
  | some (Content.items l) =>
    if (textsOf l).isEmpty then none
    else some { m with content := some (Content.str (pyStrip (joinNewline (textsOf l)))) }
  | _ => some m

/-- Resolver for the per-candidate-normalization scenario: candidate
`openai/a` maps to a provider without vision support, every other candidate
to a fully capable provider. -/
def indResolve : String → Provider :=
  fun c => if c == "openai/a" then ⟨true, true, false, true⟩ else ⟨true, true, true, true⟩

/-- A request containing an image item, used to exhibit that per-candidate
normalization starts from the original request. -/
def indReq : Request :=
  ⟨[⟨some "user", some (Content.items [⟨some "text", some "look"⟩, ⟨some "image_url", none⟩])⟩],
   false, ⟨none, []⟩⟩

/-! ## Helper lemmas about the individual phases -/

theorem jsonPhase_compliant (support : Bool) (msgs : List Message) (kw : Kwargs)
    (h : isJsonMode kw.response_format = true → support = true) :
    jsonPhase support msgs kw = some (msgs, msgs, kw, []) := by
  unfold jsonPhase
  cases hrf : kw.response_format with
  | none => rfl
  | some rf =>
    rw [hrf] at h
    cases hj : isJsonMode (some rf) with
    | false => simp [hj]
    | true => simp [hj, h hj]

theorem streamPhase_noop (support stream : Bool) (h : stream = true → support = true) :
    streamPhase support stream = (stream, []) := by
  cases stream with
  | false => rfl
  | true => rw [h rfl]; rfl

theorem visionPhase_noop (support : Bool) (msgs : List Message)
    (h : support = false → hasImageContent msgs = false) :
    visionPhase support msgs = (msgs, []) := by
  cases support with
  | true => rfl
  | false => unfold visionPhase; rw [h rfl]; rfl

theorem audioPhase_noop (support : Bool) (msgs : List Message)
    (h : support = false → hasAudioContent msgs = false) :
    audioPhase support msgs = (msgs, []) := by
  cases support with
  | true => rfl
  | false => unfold audioPhase; rw [h rfl]; rfl

/-- **C8** — Normalization is idempotent on compliant input: no json-mode,
streaming, vision or audio mismatch implies the returned messages, stream
flag and parameters equal the inputs, the caller's original list is
untouched, and zero capability warnings are emitted. -/
theorem c8_idempotent_on_compliant (p : Provider) (msgs : List Message)
    (stream : Bool) (kw : Kwargs)
    (h1 : isJsonMode kw.response_format = true → p.json_mode_support = true)
    (h2 : stream = true → p.streaming_support = true)
    (h3 : p.vision_support = false → hasImageContent msgs = false)
    (h4 : p.audio_input_support = false → hasAudioContent msgs = false) :
    processCapabilities p msgs stream kw = some ⟨msgs, msgs, stream, kw, []⟩ := by
  unfold processCapabilities
  rw [jsonPhase_compliant p.json_mode_support msgs kw h1]
  dsimp only
  rw [streamPhase_noop p.streaming_support stream h2,
      visionPhase_noop p.vision_support msgs h3,
      audioPhase_noop p.audio_input_support msgs h4]
  rfl

/-- Witness for C8 at a concrete compliant input. -/
theorem c8_idempotent_on_compliant_witness :
    processCapabilities ⟨false, true, true, false⟩
      [⟨some "user", some (Content.str "hello")⟩] true ⟨some RFValue.nonDict, [("n", "2")]⟩
      = some ⟨[⟨some "user", some (Content.str "hello")⟩],
              [⟨some "user", some (Content.str "hello")⟩], true,
              ⟨some RFValue.nonDict, [("n", "2")]⟩, []⟩ :=
  c8_idempotent_on_compliant ⟨false, true, true, false⟩
    [⟨some "user", some (Content.str "hello")⟩] true ⟨some RFValue.nonDict, [("n", "2")]⟩
    (by decide) (by decide) (by decide) (by decide)

theorem streamPhase_sound (support stream : Bool)
    (h : (streamPhase support stream).1 = true) : support = true := by
  cases support with
  | true => rfl
  | false => cases stream <;> simp [streamPhase] at h

theorem visionCollapse_noImage (m m' : Message) (h : visionCollapse m = some m') :
    msgHasImage m' = false := by
  obtain ⟨role, content⟩ := m
  cases content with
  | none => cases h; simp [msgHasImage]
  | some c =>
    cases c with
    | str s => cases h; simp [msgHasImage]
    | items l =>
      unfold visionCollapse at h
      dsimp only at h
      cases ht : (textConcat l == "") with
      | true => rw [if_pos ht] at h; cases h
      | false =>
        rw [if_neg (by simp [ht])] at h
        cases h
        simp [msgHasImage]

theorem visionPhase_noImage (msgs : List Message) :
    hasImageContent (visionPhase false msgs).1 = false := by
  unfold visionPhase
  cases h : hasImageContent msgs with
  | true =>
    simp only [h, Bool.false_eq_true, if_false, if_true]
    simp only [hasImageContent, List.any_eq_false]
    intro m' hm'
    obtain ⟨m, _, hcol⟩ := List.mem_filterMap.mp hm'
    simp [visionCollapse_noImage m m' hcol]
  | false => simp [h]

theorem audioRebuild_noAudio (m m' : Message) (h : audioRebuildMsg m = some m') :
    msgHasAudio m' = false := by
  obtain ⟨role, content⟩ := m
  cases content with
  | none => cases h; simp [msgHasAudio]
  | some c =>
    cases c with
    | str s => cases h; simp [msgHasAudio]
    | items l =>
      unfold audioRebuildMsg at h
      dsimp only at h
      cases hf : (l.filter (fun it => !isAudioItem it)).isEmpty with
      | true =>
        rw [if_neg (by simp [hf])] at h
        cases ha : l.any (fun it => it.type == some "text") with
        | true =>
          rw [if_pos (by simp [ha])] at h
          cases ht : (textConcat l == "") with
          | true => rw [if_pos ht] at h; cases h
          | false =>
            rw [if_neg (by simp [ht])] at h
            cases h
            simp [msgHasAudio]
        | false => rw [if_neg (by simp [ha])] at h; cases h
      | false =>
        rw [if_pos (by simp [hf])] at h
        cases h
        simp only [msgHasAudio, List.any_eq_false]
        intro it hit
        have h2 := (List.mem_filter.mp hit).2
        simpa using h2

theorem audioRebuild_presNoImage (m m' : Message)
    (hm : msgHasImage m = false) (h : audioRebuildMsg m = some m') :
    msgHasImage m' = false := by
  obtain ⟨role, content⟩ := m
  cases content with
  | none => cases h; simp [msgHasImage]
  | some c =>
    cases c with
    | str s => cases h; simp [msgHasImage]
    | items l =>
      unfold audioRebuildMsg at h
      dsimp only at h
      cases hf : (l.filter (fun it => !isAudioItem it)).isEmpty with
      | true =>
        rw [if_neg (by simp [hf])] at h
        cases ha : l.any (fun it => it.type == some "text") with
        | true =>
          rw [if_pos (by simp [ha])] at h
          cases ht : (textConcat l == "") with
          | true => rw [if_pos ht] at h; cases h
          | false =>
            rw [if_neg (by simp [ht])] at h
            cases h
            simp [msgHasImage]
        | false => rw [if_neg (by simp [ha])] at h; cases h
      | false =>
        rw [if_pos (by simp [hf])] at h
        cases h
        simp only [msgHasImage, List.any_eq_false] at hm ⊢
        intro it hit
        exact hm it (List.mem_filter.mp hit).1

theorem audioPhase_noAudio (msgs : List Message) :
    hasAudioContent (audioPhase false msgs).1 = false := by
  unfold audioPhase
  cases h : hasAudioContent msgs with
  | true =>
    simp only [h, Bool.false_eq_true, if_false, if_true]
    simp only [hasAudioContent, List.any_eq_false]
    intro m' hm'
    obtain ⟨m, _, hreb⟩ := List.mem_filterMap.mp hm'
    simp [audioRebuild_noAudio m m' hreb]
  | false => simp [h]

theorem audioPhase_presNoImage (support : Bool) (msgs : List Message)
    (h : hasImageContent msgs = false) :
    hasImageContent (audioPhase support msgs).1 = false := by
  unfold audioPhase
  cases support with
  | true => simpa using h
  | false =>
    cases ha : hasAudioContent msgs with
    | true =>
      simp only [ha, Bool.false_eq_true, if_false, if_true]
      simp only [hasImageContent, List.any_eq_false]
      intro m' hm'
      obtain ⟨m, hmem, hreb⟩ := List.mem_filterMap.mp hm'
      have hmi : msgHasImage m = false := by
        simp only [hasImageContent, List.any_eq_false] at h
        have := h m hmem
        simpa using this
      simp [audioRebuild_presNoImage m m' hmi hreb]
    | false => simpa [ha] using h

theorem jsonPhase_kw (support : Bool) (msgs : List Message) (kw : Kwargs)
    (orig work : List Message) (kw1 : Kwargs) (w1 : List Warning)
    (h : jsonPhase support msgs kw = some (orig, work, kw1, w1))
    (hs : support = false) : isJsonMode kw1.response_format = false := by
  unfold jsonPhase at h
  obtain ⟨rfv, krest⟩ := kw
  cases rfv with
  | none => cases h; simp [isJsonMode]
  | some rf =>
    dsimp only at h
    cases hj : isJsonMode (some rf) with
    | true =>
      rw [if_pos (by simp [hj, hs])] at h
      cases hscan : jsonSystemScan msgs with
      | none => rw [hscan] at h; cases h
      | some o =>
        cases o with
        | none => rw [hscan] at h; cases h; simp [isJsonMode]
        | some msgs' => rw [hscan] at h; cases h; simp [isJsonMode]
    | false =>
      rw [if_neg (by simp [hj])] at h
      cases h
      exact hj

/-- **C4** — Capability invariant: whenever `_process_capabilities` returns a
result, that result satisfies the target provider's declared capabilities:
the stream flag is true only if streaming is supported, no image content
survives when vision is unsupported, no audio content survives when audio
input is unsupported, and no `json_object` response format survives when
JSON mode is unsupported. -/
theorem c4_capability_invariant (p : Provider) (msgs : List Message)
    (stream : Bool) (kw : Kwargs) (r : ProcResult)
    (h : processCapabilities p msgs stream kw = some r) :
    (r.stream = true → p.streaming_support = true) ∧
    (p.vision_support = false → hasImageContent r.messages = false) ∧
    (p.audio_input_support = false → hasAudioContent r.messages = false) ∧
    (p.json_mode_support = false → isJsonMode r.kwargs.response_format = false) := by
  unfold processCapabilities at h
  cases hj : jsonPhase p.json_mode_support msgs kw with
  | none => rw [hj] at h; cases h
  | some q =>
    obtain ⟨orig, msgs1, kw1, w1⟩ := q
    rw [hj] at h
    dsimp only at h
    cases h
    refine ⟨?_, ?_, ?_, ?_⟩
    · exact fun hs => streamPhase_sound p.streaming_support stream hs
    · intro hv
      rw [hv]
      exact audioPhase_presNoImage p.audio_input_support _ (visionPhase_noImage msgs1)
    · intro ha
      rw [ha]
      exact audioPhase_noAudio _
    · exact fun hjm => jsonPhase_kw p.json_mode_support msgs kw orig msgs1 kw1 w1 hj hjm

/-- Witness for C4 at a concrete input (provider supporting nothing,
streaming requested). -/
theorem c4_capability_invariant_witness :
    ((⟨[⟨some "user", some (Content.str "hi")⟩], [⟨some "user", some (Content.str "hi")⟩],
       false, ⟨none, []⟩, [Warning.streaming]⟩ : ProcResult).stream = true →
        (⟨false, false, false, false⟩ : Provider).streaming_support = true) ∧
    ((⟨false, false, false, false⟩ : Provider).vision_support = false →
        hasImageContent ([⟨some "user", some (Content.str "hi")⟩] : List Message) = false) ∧
    ((⟨false, false, false, false⟩ : Provider).audio_input_support = false →
        hasAudioContent ([⟨some "user", some (Content.str "hi")⟩] : List Message) = false) ∧
    ((⟨false, false, false, false⟩ : Provider).json_mode_support = false →
        isJsonMode (⟨none, []⟩ : Kwargs).response_format = false) :=
  c4_capability_invariant ⟨false, false, false, false⟩
    [⟨some "user", some (Content.str "hi")⟩] true ⟨none, []⟩
    ⟨[⟨some "user", some (Content.str "hi")⟩], [⟨some "user", some (Content.str "hi")⟩],
     false, ⟨none, []⟩, [Warning.streaming]⟩ (by decide)

/-! ## Lemmas connecting the accumulation loop to "joined by newline and
trimmed" -/

theorem textConcat_from (l : List ContentItem) (acc : String) :
    l.foldl (fun acc it =>
      if it.type == some "text" then acc ++ it.text.getD "" ++ "\n" else acc) acc
      = acc ++ textConcat l := by
  induction l generalizing acc with
  | nil => simp [textConcat]
  | cons it l ih =>
    simp only [textConcat, List.foldl_cons] at ih ⊢
    rw [ih, ih (if it.type == some "text" then "" ++ it.text.getD "" ++ "\n" else "")]
    cases h : (it.type == some "text") with
    | true => simp [h, String.append_assoc]
    | false => simp [h]

theorem textConcat_eq_concatNl (l : List ContentItem) :
    textConcat l = concatNl (textsOf l) := by
  induction l with
  | nil => rfl
  | cons it l ih =>
    simp only [textConcat, List.foldl_cons]
    rw [textConcat_from]
    cases h : (it.type == some "text") with
    | true =>
      simp only [h, if_true, textsOf, List.filterMap_cons, concatNl]
      rw [ih]
      simp [concatNl, textsOf, String.append_assoc]
    | false =>
      simp only [h, Bool.false_eq_true, if_false, textsOf, List.filterMap_cons]
      rw [ih]
      simp [textsOf]

theorem concatNl_ne_empty (s : String) (r : List String) :
    concatNl (s :: r) ≠ "" := by
  intro h
  have hlen := congrArg String.length h
  simp only [concatNl, String.length_append] at hlen
  have h1 : ("\n" : String).length = 1 := rfl
  have h2 : ("" : String).length = 0 := rfl
  rw [h1, h2] at hlen
  omega

theorem concatNl_cons_eq (s : String) (r : List String) :
    concatNl (s :: r) = joinNewline (s :: r) ++ "\n" := by
  induction r generalizing s with
  | nil => simp [concatNl, joinNewline]
  | cons t r ih =>
    show s ++ "\n" ++ concatNl (t :: r) = (s ++ "\n" ++ joinNewline (t :: r)) ++ "\n"
    rw [ih t]
    simp [String.append_assoc]

theorem pyStrip_append_newline (s : String) : pyStrip (s ++ "\n") = pyStrip s := by
  unfold pyStrip
  rw [String.data_append]
  have hnl : ("\n" : String).data = ['\n'] := rfl
  rw [hnl, List.dropWhile_append]
  cases hd : (s.data.dropWhile isPySpace).isEmpty with
  | true =>
    simp only [hd, if_true]
    rw [List.isEmpty_iff.mp hd]
    rfl
  | false =>
    simp only [hd, Bool.false_eq_true, if_false]
    rw [List.reverse_append]
    have h1 : (['\n'] : List Char).reverse = ['\n'] := rfl
    rw [h1]
    have h2 : (['\n'] : List Char) ++ (s.data.dropWhile isPySpace).reverse
        = '\n' :: (s.data.dropWhile isPySpace).reverse := rfl
    rw [h2, List.dropWhile_cons_of_pos (by decide)]

theorem pyStrip_concatNl (ts : List String) :
    pyStrip (concatNl ts) = pyStrip (joinNewline ts) := by
  cases ts with
  | nil => rfl
  | cons s r => rw [concatNl_cons_eq, pyStrip_append_newline]

theorem visionCollapse_eq_claim (m : Message) :
    visionCollapse m = visionClaimRebuild m := by
  obtain ⟨role, content⟩ := m
  cases content with
  | none => rfl
  | some c =>
    cases c with
    | str s => rfl
    | items l =>
      unfold visionCollapse visionClaimRebuild
      dsimp only
      rw [textConcat_eq_concatNl]
      cases hts : textsOf l with
      | nil => simp [concatNl]
      | cons s r =>
        rw [if_neg (by simp [concatNl_ne_empty s r]), if_neg (by simp)]
        rw [pyStrip_concatNl]

/-- **C5 counterexample** — The claim says messages not containing image
content are left unchanged, but once any image is present the rebuild of
chat_completion.py lines 143-161 collapses *every* message whose content is
a list: here the second message carries only text items and no image, yet
its content is rewritten from the item list to the plain string `"a\nb"`. -/
theorem c5_vision_claim_cex :
    (processCapabilities ⟨true, true, false, true⟩
        [⟨some "user", some (Content.items [⟨some "image_url", none⟩])⟩,
         ⟨some "user", some (Content.items [⟨some "text", some "a"⟩, ⟨some "text", some "b"⟩])⟩]
        false ⟨none, []⟩).map ProcResult.messages
      = some [⟨some "user", some (Content.str "a\nb")⟩] ∧
    (some [(⟨some "user", some (Content.str "a\nb")⟩ : Message)] ≠
      some [(⟨some "user",
             some (Content.items [⟨some "text", some "a"⟩, ⟨some "text", some "b"⟩])⟩ : Message)]) := by
  exact ⟨by decide, by decide⟩

/-- **C5 (amended)** — For a provider lacking (only) vision support and a
message list containing image content, `_process_capabilities` rebuilds
every message whose content is a list, affected by images or not: such a
message's content becomes its text items joined by newline and trimmed, it
is dropped when no text item remains, messages with plain-string content
are kept unchanged, the caller's original list is untouched, and exactly
the vision capability warning is emitted. -/
theorem c5_vision_stripping (p : Provider) (msgs : List Message)
    (stream : Bool) (kw : Kwargs)
    (h1 : p.json_mode_support = true) (h2 : stream = false)
    (h3 : p.vision_support = false) (h4 : p.audio_input_support = true)
    (h5 : hasImageContent msgs = true) :
    processCapabilities p msgs stream kw =
      some ⟨msgs, msgs.filterMap visionClaimRebuild, false, kw, [Warning.vision]⟩ := by
  unfold processCapabilities
  rw [jsonPhase_compliant p.json_mode_support msgs kw (fun _ => h1)]
  dsimp only
  rw [h2, h3, h4]
  have hst : streamPhase p.streaming_support false = (false, []) := by
    cases p.streaming_support <;> rfl
  have hvp : visionPhase false msgs = (msgs.filterMap visionCollapse, [Warning.vision]) := by
    unfold visionPhase
    rw [if_neg (by simp), if_pos h5]
  have hcol : msgs.filterMap visionCollapse = msgs.filterMap visionClaimRebuild := by
    have hfn : visionCollapse = visionClaimRebuild := funext visionCollapse_eq_claim
    rw [hfn]
  rw [hst, hvp, hcol]
  rfl

/-- Witness for C5 (amended) at a concrete input. -/
theorem c5_vision_stripping_witness :
    processCapabilities ⟨true, true, false, true⟩
        [⟨some "user", some (Content.items [⟨some "image_url", none⟩])⟩,
         ⟨some "user", some (Content.items [⟨some "text", some "a"⟩, ⟨some "text", some "b"⟩])⟩]
        false ⟨none, []⟩
      = some ⟨[⟨some "user", some (Content.items [⟨some "image_url", none⟩])⟩,
               ⟨some "user", some (Content.items [⟨some "text", some "a"⟩, ⟨some "text", some "b"⟩])⟩],
              ([⟨some "user", some (Content.items [⟨some "image_url", none⟩])⟩,
                ⟨some "user", some (Content.items [⟨some "text", some "a"⟩,
                 ⟨some "text", some "b"⟩])⟩] : List Message).filterMap visionClaimRebuild,
              false, ⟨none, []⟩, [Warning.vision]⟩ :=
  c5_vision_stripping ⟨true, true, false, true⟩
    [⟨some "user", some (Content.items [⟨some "image_url", none⟩])⟩,
     ⟨some "user", some (Content.items [⟨some "text", some "a"⟩, ⟨some "text", some "b"⟩])⟩]
    false ⟨none, []⟩ rfl rfl rfl rfl (by decide)

/-- **C6** — Audio stripping at the failing input: for a provider lacking
audio-input support and a message whose list content holds one text item and
one audio item, the code keeps the content as the item list
`[{type: text, text: "hi"}]` instead of collapsing it to the plain string
`"hi"` as the claim (and the code's own comment at chat_completion.py line
202, "If only text remains, convert to simple format") describes: the
collapse branch requires the filtered item list to be empty while a text
item exists in the original content, which is impossible, so it is dead
code. -/
theorem c6_audio_collapse_unreachable :
    (processCapabilities ⟨true, true, true, false⟩
        [⟨some "user", some (Content.items [⟨some "text", some "hi"⟩, ⟨some "audio", none⟩])⟩]
        false ⟨none, []⟩).map ProcResult.messages
      = some [⟨some "user", some (Content.items [⟨some "text", some "hi"⟩])⟩] ∧
    (some (Content.items [(⟨some "text", some "hi"⟩ : ContentItem)]) ≠
      some (Content.str "hi")) ∧
    (∀ (l : List ContentItem),
      (l.filter (fun it => !isAudioItem it)).isEmpty = true →
        l.any (fun it => it.type == some "text") = false) := by
  refine ⟨by decide, by decide, ?_⟩
  intro l hf
  rw [List.any_eq_false]
  intro it hit
  have hempty := List.isEmpty_iff.mp hf
  have hmem : isAudioItem it = true := by
    by_contra hna
    have : it ∈ l.filter (fun it => !isAudioItem it) :=
      List.mem_filter.mpr ⟨hit, by simp [Bool.eq_false_iff.mpr hna]⟩
    rw [hempty] at this
    cases this
  intro htext
  cases hty : it.type with
  | none => rw [hty] at htext; cases htext
  | some t =>
    rw [hty] at htext
    have ht : t = "text" := by simpa using htext
    simp [isAudioItem, hty, ht] at hmem

/-- **C10** — `_process_capabilities` is not total on the `Message` type:
a system message whose content is a list of content items, combined with a
`json_object` response format and a provider without JSON-mode support,
drives the JSON downgrade into `"json" not in content.lower()` on a list
(`AttributeError` in Python), so the operation returns no result. -/
theorem c10_json_downgrade_not_total :
    processCapabilities ⟨false, true, true, true⟩
        [⟨some "user", some (Content.str "hi")⟩,
         ⟨some "system", some (Content.items [])⟩]
        false ⟨some (RFValue.dict (some "json_object")), [("temperature", "0")]⟩
      = none := by decide

/-- **C2 counterexample** — The claim quantifies over *every* message list,
but a message list whose first system message has list-form content makes
the JSON downgrade fail (Python `AttributeError` on `.lower()`), so no
result is returned and in particular "no error is raised" is violated. -/
theorem c2_json_claim_cex :
    processCapabilities ⟨false, true, true, true⟩
        [⟨some "system", some (Content.items [⟨some "text", some "x"⟩])⟩]
        false ⟨some (RFValue.dict (some "json_object")), []⟩
      = none := by decide

/-! ## Characterization of the in-place JSON-instruction append -/

theorem jsonSystemScan_charact (msgs msgs' : List Message)
    (h : jsonSystemScan msgs = some (some msgs')) :
    msgs' = msgs ∨
    ∃ i m s, msgs[i]? = some m ∧ m.role = some "system" ∧
      m.content = some (Content.str s) ∧
      msgs' = msgs.set i { m with content := some (Content.str (s ++ appendInstr)) } := by
  induction msgs generalizing msgs' with
  | nil => simp [jsonSystemScan] at h
  | cons m rest ih =>
    unfold jsonSystemScan at h
    cases hr : (m.role == some "system") with
    | true =>
      rw [if_pos hr] at h
      cases hc : m.content with
      | none => rw [hc] at h; cases h
      | some c =>
        cases c with
        | items l => rw [hc] at h; cases h
        | str s =>
          rw [hc] at h
          dsimp only at h
          cases hj : strContains (pyLower s) "json" with
          | true =>
            rw [if_pos hj] at h
            cases h
            exact Or.inl rfl
          | false =>
            rw [if_neg (by simp [hj])] at h
            cases h
            refine Or.inr ⟨0, m, s, by simp, beq_iff_eq.mp hr, hc, rfl⟩
    | false =>
      rw [if_neg (by simp [hr])] at h
      cases hs : jsonSystemScan rest with
      | none => rw [hs] at h; cases h
      | some o =>
        cases o with
        | none => rw [hs] at h; cases h
        | some rest' =>
          rw [hs] at h
          cases h
          rcases ih rest' hs with heq | ⟨i, mm, s, hi, hrole, hcont, hset⟩
          · exact Or.inl (by rw [heq])
          · refine Or.inr ⟨i + 1, mm, s, ?_, hrole, hcont, ?_⟩
            · rw [List.getElem?_cons_succ]; exact hi
            · show m :: rest' = (m :: rest).set (i + 1) _
              rw [hset]; rfl

theorem jsonPhase_orig (support : Bool) (msgs : List Message) (kw : Kwargs)
    (orig work : List Message) (kw1 : Kwargs) (w1 : List Warning)
    (h : jsonPhase support msgs kw = some (orig, work, kw1, w1)) :
    orig = msgs ∨
    ∃ i m s, msgs[i]? = some m ∧ m.role = some "system" ∧
      m.content = some (Content.str s) ∧
      orig = msgs.set i { m with content := some (Content.str (s ++ appendInstr)) } := by
  unfold jsonPhase at h
  obtain ⟨rfv, krest⟩ := kw
  cases rfv with
  | none => cases h; exact Or.inl rfl
  | some rf =>
    dsimp only at h
    cases hcond : (isJsonMode (some rf) && !support) with
    | true =>
      rw [if_pos hcond] at h
      cases hs : jsonSystemScan msgs with
      | none => rw [hs] at h; cases h
      | some o =>
        cases o with
        | none => rw [hs] at h; cases h; exact Or.inl rfl
        | some ms2 =>
          rw [hs] at h
          cases h
          exact jsonSystemScan_charact msgs _ hs
    | false =>
      rw [if_neg (by simp [hcond])] at h
      cases h
      exact Or.inl rfl

/-- **C7 counterexample** — `_process_capabilities` is not a pure
transformation of its inputs: at a provider without JSON-mode support, a
`json_object` response format and an existing system message whose text
does not mention JSON, the instruction is appended to the caller's message
object *in place* (chat_completion.py line 97), so after the call the
caller's original message list no longer equals the list passed in. -/
theorem c7_inplace_mutation_cex :
    (processCapabilities ⟨false, true, true, true⟩
        [⟨some "system", some (Content.str "You are helpful.")⟩]
        false ⟨some (RFValue.dict (some "json_object")), []⟩).map ProcResult.origMessages
      = some [⟨some "system", some (Content.str ("You are helpful." ++ appendInstr))⟩] ∧
    (some [(⟨some "system", some (Content.str ("You are helpful." ++ appendInstr))⟩ : Message)]
      ≠ some [(⟨some "system", some (Content.str "You are helpful.")⟩ : Message)]) :=
  ⟨by decide, by decide⟩

/-- **C7 (amended)** — `_process_capabilities` never mutates the caller's
kwargs map or the structure of the message list, and leaves the caller's
message objects unchanged *except* that when the JSON-mode downgrade
appends the instruction to an existing system message, that message is
mutated in place: whenever the call returns, the caller's original list is
either exactly the input, or the input with one system message's string
content extended by the JSON instruction. Without a JSON-mode mismatch the
original list is always unchanged. -/
theorem c7_purity_amended (p : Provider) (msgs : List Message) (stream : Bool)
    (kw : Kwargs) (r : ProcResult)
    (h : processCapabilities p msgs stream kw = some r) :
    ((p.json_mode_support = true ∨ isJsonMode kw.response_format = false) →
        r.origMessages = msgs) ∧
    (r.origMessages = msgs ∨
      ∃ i m s, msgs[i]? = some m ∧ m.role = some "system" ∧
        m.content = some (Content.str s) ∧
        r.origMessages = msgs.set i { m with content := some (Content.str (s ++ appendInstr)) }) := by
  unfold processCapabilities at h
  cases hj : jsonPhase p.json_mode_support msgs kw with
  | none => rw [hj] at h; cases h
  | some q =>
    obtain ⟨orig, msgs1, kw1, w1⟩ := q
    rw [hj] at h
    dsimp only at h
    cases h
    constructor
    · intro hcase
      have hcompl : jsonPhase p.json_mode_support msgs kw = some (msgs, msgs, kw, []) := by
        refine jsonPhase_compliant p.json_mode_support msgs kw ?_
        rcases hcase with h1 | h2
        · exact fun _ => h1
        · intro hi; rw [h2] at hi; cases hi
      rw [hcompl] at hj
      cases hj
      rfl
    · exact jsonPhase_orig p.json_mode_support msgs kw orig msgs1 kw1 w1 hj

/-- Witness for C7 (amended) at a concrete input with no JSON-mode
mismatch. -/
theorem c7_purity_amended_witness :
    ((((⟨true, true, true, true⟩ : Provider).json_mode_support = true ∨
        isJsonMode (⟨none, []⟩ : Kwargs).response_format = false) →
       (⟨[⟨some "user", some (Content.str "hi")⟩], [⟨some "user", some (Content.str "hi")⟩],
         false, ⟨none, []⟩, []⟩ : ProcResult).origMessages
         = [⟨some "user", some (Content.str "hi")⟩]) ∧
     ((⟨[⟨some "user", some (Content.str "hi")⟩], [⟨some "user", some (Content.str "hi")⟩],
        false, ⟨none, []⟩, []⟩ : ProcResult).origMessages
         = [⟨some "user", some (Content.str "hi")⟩] ∨
       ∃ i m s, ([⟨some "user", some (Content.str "hi")⟩] : List Message)[i]? = some m ∧
         m.role = some "system" ∧ m.content = some (Content.str s) ∧
         (⟨[⟨some "user", some (Content.str "hi")⟩], [⟨some "user", some (Content.str "hi")⟩],
           false, ⟨none, []⟩, []⟩ : ProcResult).origMessages
           = ([⟨some "user", some (Content.str "hi")⟩] : List Message).set i
               { m with content := some (Content.str (s ++ appendInstr)) })) :=
  c7_purity_amended ⟨true, true, true, true⟩ [⟨some "user", some (Content.str "hi")⟩]
    false ⟨none, []⟩
    ⟨[⟨some "user", some (Content.str "hi")⟩], [⟨some "user", some (Content.str "hi")⟩],
     false, ⟨none, []⟩, []⟩ (by decide)

/-! ## Lemmas for the JSON-mode downgrade shape of the returned messages -/

theorem firstSystem_none_scan (msgs : List Message)
    (h : firstSystem msgs = none) : jsonSystemScan msgs = some none := by
  induction msgs with
  | nil => rfl
  | cons m rest ih =>
    unfold firstSystem at h ih
    rw [List.find?_cons] at h
    cases hr : (m.role == some "system") with
    | true => rw [hr] at h; cases h
    | false =>
      rw [hr] at h
      unfold jsonSystemScan
      rw [if_neg (by simp [hr]), ih h]
      rfl

theorem firstSystem_json_scan (msgs : List Message) (m : Message) (s : String)
    (hf : firstSystem msgs = some m) (hc : m.content = some (Content.str s))
    (hj : strContains (pyLower s) "json" = true) :
    jsonSystemScan msgs = some (some msgs) := by
  induction msgs with
  | nil => cases hf
  | cons m0 rest ih =>
    unfold firstSystem at hf ih
    rw [List.find?_cons] at hf
    cases hr : (m0.role == some "system") with
    | true =>
      rw [hr] at hf
      cases hf
      unfold jsonSystemScan
      rw [if_pos hr, hc]
      dsimp only
      rw [if_pos hj]
    | false =>
      rw [hr] at hf
      unfold jsonSystemScan
      rw [if_neg (by simp [hr]), ih hf]
      rfl

theorem firstSystem_append_scan (msgs : List Message) (m : Message) (s : String)
    (hf : firstSystem msgs = some m) (hc : m.content = some (Content.str s))
    (hj : strContains (pyLower s) "json" = false) :
    ∃ msgs1, jsonSystemScan msgs = some (some msgs1) ∧
      { m with content := some (Content.str (s ++ appendInstr)) } ∈ msgs1 := by
  induction msgs with
  | nil => cases hf
  | cons m0 rest ih =>
    unfold firstSystem at hf ih
    rw [List.find?_cons] at hf
    cases hr : (m0.role == some "system") with
    | true =>
      rw [hr] at hf
      cases hf
      refine ⟨{ m with content := some (Content.str (s ++ appendInstr)) } :: rest, ?_, ?_⟩
      · unfold jsonSystemScan
        rw [if_pos hr, hc]
        dsimp only
        rw [if_neg (by simp [hj])]
      · exact List.mem_cons_self _ _
    | false =>
      rw [hr] at hf
      obtain ⟨msgs1, hscan, hmem⟩ := ih hf
      refine ⟨m0 :: msgs1, ?_, List.mem_cons_of_mem m0 hmem⟩
      unfold jsonSystemScan
      rw [if_neg (by simp [hr]), hscan]
      rfl

theorem visionCollapse_strContent (m : Message) (s : String)
    (hc : m.content = some (Content.str s)) : visionCollapse m = some m := by
  obtain ⟨role, content⟩ := m
  cases hc
  rfl

theorem audioRebuild_strContent (m : Message) (s : String)
    (hc : m.content = some (Content.str s)) : audioRebuildMsg m = some m := by
  obtain ⟨role, content⟩ := m
  cases hc
  rfl

theorem visionPhase_mem_str (sup : Bool) (msgs : List Message) (m : Message) (s : String)
    (hm : m ∈ msgs) (hc : m.content = some (Content.str s)) :
    m ∈ (visionPhase sup msgs).1 := by
  unfold visionPhase
  cases sup with
  | true => simpa using hm
  | false =>
    cases hi : hasImageContent msgs with
    | true =>
      simp only [hi, Bool.false_eq_true, if_false, if_true]
      exact List.mem_filterMap.mpr ⟨m, hm, visionCollapse_strContent m s hc⟩
    | false => simpa [hi] using hm

theorem audioPhase_mem_str (sup : Bool) (msgs : List Message) (m : Message) (s : String)
    (hm : m ∈ msgs) (hc : m.content = some (Content.str s)) :
    m ∈ (audioPhase sup msgs).1 := by
  unfold audioPhase
  cases sup with
  | true => simpa using hm
  | false =>
    cases hi : hasAudioContent msgs with
    | true =>
      simp only [hi, Bool.false_eq_true, if_false, if_true]
      exact List.mem_filterMap.mpr ⟨m, hm, audioRebuild_strContent m s hc⟩
    | false => simpa [hi] using hm

theorem visionPhase_cons_str (sup : Bool) (rest : List Message) (m : Message) (s : String)
    (hc : m.content = some (Content.str s)) :
    ∃ t2, (visionPhase sup (m :: rest)).1 = m :: t2 := by
  unfold visionPhase
  cases sup with
  | true => exact ⟨rest, rfl⟩
  | false =>
    cases hi : hasImageContent (m :: rest) with
    | true =>
      simp only [hi, Bool.false_eq_true, if_false, if_true]
      refine ⟨rest.filterMap visionCollapse, ?_⟩
      rw [List.filterMap_cons, visionCollapse_strContent m s hc]
    | false => exact ⟨rest, by simp [hi]⟩

theorem audioPhase_cons_str (sup : Bool) (rest : List Message) (m : Message) (s : String)
    (hc : m.content = some (Content.str s)) :
    ∃ t2, (audioPhase sup (m :: rest)).1 = m :: t2 := by
  unfold audioPhase
  cases sup with
  | true => exact ⟨rest, rfl⟩
  | false =>
    cases hi : hasAudioContent (m :: rest) with
    | true =>
      simp only [hi, Bool.false_eq_true, if_false, if_true]
      refine ⟨rest.filterMap audioRebuildMsg, ?_⟩
      rw [List.filterMap_cons, audioRebuild_strContent m s hc]
    | false => exact ⟨rest, by simp [hi]⟩

/-- **C2 (amended)** — For every message list whose first system message (if
any) carries plain-string content, a `json_object` response format and a
provider without JSON-mode support yield: the forwarded parameters lack
`response_format`, a JSON-mode capability warning is emitted, no error is
raised, and the returned list carries the JSON instruction — appended to the
first system message exactly when its text does not already mention JSON
(case-insensitively), or as a new system message at position 0 when no
system message exists. (The restriction to string content is forced by the
counterexample: list-form system content makes the call fail.) -/
theorem c2_json_downgrade_amended (p : Provider) (msgs : List Message)
    (stream : Bool) (kw : Kwargs)
    (h1 : p.json_mode_support = false)
    (h2 : isJsonMode kw.response_format = true)
    (h3 : ∀ m, firstSystem msgs = some m → ∃ s, m.content = some (Content.str s)) :
    ∃ r, processCapabilities p msgs stream kw = some r ∧
      r.kwargs.response_format = none ∧
      Warning.jsonMode ∈ r.warnings ∧
      (firstSystem msgs = none →
        r.messages.head? = some ⟨some "system", some (Content.str baseInstr)⟩) ∧
      (∀ m2 s2, firstSystem msgs = some m2 → m2.content = some (Content.str s2) →
        (strContains (pyLower s2) "json" = true → m2 ∈ r.messages) ∧
        (strContains (pyLower s2) "json" = false →
          { m2 with content := some (Content.str (s2 ++ appendInstr)) } ∈ r.messages)) := by
  obtain ⟨rfv, krest⟩ := kw
  cases rfv with
  | none => simp [isJsonMode] at h2
  | some rf =>
    have h2' : isJsonMode (some rf) = true := h2
    have hcond : (isJsonMode (some rf) && !p.json_mode_support) = true := by
      simp [h1, h2']
    cases hfs : firstSystem msgs with
    | none =>
      have hscan := firstSystem_none_scan msgs hfs
      have hjp : jsonPhase p.json_mode_support msgs ⟨some rf, krest⟩ =
          some (msgs, ⟨some "system", some (Content.str baseInstr)⟩ :: msgs,
                ⟨none, krest⟩, [Warning.jsonMode]) := by
        unfold jsonPhase
        dsimp only
        rw [if_pos hcond, hscan]
      have hpc : processCapabilities p msgs stream ⟨some rf, krest⟩ =
          some ⟨msgs,
                (audioPhase p.audio_input_support (visionPhase p.vision_support
                  (⟨some "system", some (Content.str baseInstr)⟩ :: msgs)).1).1,
                (streamPhase p.streaming_support stream).1,
                ⟨none, krest⟩,
                [Warning.jsonMode] ++ (streamPhase p.streaming_support stream).2
                  ++ (visionPhase p.vision_support
                      (⟨some "system", some (Content.str baseInstr)⟩ :: msgs)).2
                  ++ (audioPhase p.audio_input_support (visionPhase p.vision_support
                      (⟨some "system", some (Content.str baseInstr)⟩ :: msgs)).1).2⟩ := by
        unfold processCapabilities
        rw [hjp]
      refine ⟨_, hpc, rfl, by simp, ?_, ?_⟩
      · intro _
        obtain ⟨t2, ht2⟩ := visionPhase_cons_str p.vision_support msgs
          ⟨some "system", some (Content.str baseInstr)⟩ baseInstr rfl
        rw [ht2]
        obtain ⟨t3, ht3⟩ := audioPhase_cons_str p.audio_input_support t2
          ⟨some "system", some (Content.str baseInstr)⟩ baseInstr rfl
        rw [ht3]
        rfl
      · intro m2 s2 hf2
        cases hf2
    | some m =>
      obtain ⟨s, hs⟩ := h3 m hfs
      cases hcont : strContains (pyLower s) "json" with
      | true =>
        have hscan := firstSystem_json_scan msgs m s hfs hs hcont
        have hjp : jsonPhase p.json_mode_support msgs ⟨some rf, krest⟩ =
            some (msgs, msgs, ⟨none, krest⟩, [Warning.jsonMode]) := by
          unfold jsonPhase
          dsimp only
          rw [if_pos hcond, hscan]
        have hpc : processCapabilities p msgs stream ⟨some rf, krest⟩ =
            some ⟨msgs,
                  (audioPhase p.audio_input_support
                    (visionPhase p.vision_support msgs).1).1,
                  (streamPhase p.streaming_support stream).1,
                  ⟨none, krest⟩,
                  [Warning.jsonMode] ++ (streamPhase p.streaming_support stream).2
                    ++ (visionPhase p.vision_support msgs).2
                    ++ (audioPhase p.audio_input_support
                        (visionPhase p.vision_support msgs).1).2⟩ := by
          unfold processCapabilities
          rw [hjp]
        refine ⟨_, hpc, rfl, by simp, ?_, ?_⟩
        · intro hnone
          cases hnone
        · intro m2 s2 hf2 hc2
          cases hf2
          have hseq : s = s2 := Content.str.inj (Option.some.inj (hs.symm.trans hc2))
          subst hseq
          constructor
          · intro _
            have hm : m ∈ msgs := List.mem_of_find?_eq_some hfs
            exact audioPhase_mem_str p.audio_input_support _ m s
              (visionPhase_mem_str p.vision_support msgs m s hm hs) hs
          · intro hfalse
            rw [hcont] at hfalse
            cases hfalse
      | false =>
        obtain ⟨msgs1, hscan, hmem⟩ := firstSystem_append_scan msgs m s hfs hs hcont
        have hjp : jsonPhase p.json_mode_support msgs ⟨some rf, krest⟩ =
            some (msgs1, msgs1, ⟨none, krest⟩, [Warning.jsonMode]) := by
          unfold jsonPhase
          dsimp only
          rw [if_pos hcond, hscan]
        have hpc : processCapabilities p msgs stream ⟨some rf, krest⟩ =
            some ⟨msgs1,
                  (audioPhase p.audio_input_support
                    (visionPhase p.vision_support msgs1).1).1,
                  (streamPhase p.streaming_support stream).1,
                  ⟨none, krest⟩,
                  [Warning.jsonMode] ++ (streamPhase p.streaming_support stream).2
                    ++ (visionPhase p.vision_support msgs1).2
                    ++ (audioPhase p.audio_input_support
                        (visionPhase p.vision_support msgs1).1).2⟩ := by
          unfold processCapabilities
          rw [hjp]
        refine ⟨_, hpc, rfl, by simp, ?_, ?_⟩
        · intro hnone
          cases hnone
        · intro m2 s2 hf2 hc2
          cases hf2
          have hseq : s = s2 := Content.str.inj (Option.some.inj (hs.symm.trans hc2))
          subst hseq
          constructor
          · intro htrue
            rw [hcont] at htrue
            cases htrue
          · intro _
            exact audioPhase_mem_str p.audio_input_support _ _ (s ++ appendInstr)
              (visionPhase_mem_str p.vision_support msgs1 _ (s ++ appendInstr) hmem rfl) rfl

/-- Witness for C2 (amended) at a concrete input without a system message. -/
theorem c2_json_downgrade_amended_witness :
    ∃ r, processCapabilities ⟨false, true, true, true⟩
        [⟨some "user", some (Content.str "hi")⟩] false
        ⟨some (RFValue.dict (some "json_object")), []⟩ = some r ∧
      r.kwargs.response_format = none ∧
      Warning.jsonMode ∈ r.warnings ∧
      (firstSystem [⟨some "user", some (Content.str "hi")⟩] = none →
        r.messages.head? = some ⟨some "system", some (Content.str baseInstr)⟩) ∧
      (∀ m2 s2, firstSystem [⟨some "user", some (Content.str "hi")⟩] = some m2 →
        m2.content = some (Content.str s2) →
        (strContains (pyLower s2) "json" = true → m2 ∈ r.messages) ∧
        (strContains (pyLower s2) "json" = false →
          { m2 with content := some (Content.str (s2 ++ appendInstr)) } ∈ r.messages)) :=
  c2_json_downgrade_amended ⟨false, true, true, true⟩
    [⟨some "user", some (Content.str "hi")⟩] false
    ⟨some (RFValue.dict (some "json_object")), []⟩
    rfl (by decide) (fun m hm => Option.noConfusion hm)

/-! ## Fallback-chain and orchestration theorems -/

/-- **C1** — The chain expansion of `create`/`acreate`: `model = "a"`,
`retries = 2`, `fallback_models = ["b"]` produces exactly the candidate
chain `[a, a, b]`; with `retries = 0` the additional-candidate chain is
exactly the caller's fallback list (the primary is never auto-appended);
and when the first two attempts fail retryably and the third succeeds, the
spec-modelled orchestrator returns the third attempt's result and raises no
aggregate error. -/
theorem c1_fallback_chain_expansion :
    effectiveFallbackModels "a" (some ["b"]) 2 = some ["a", "a", "b"] ∧
    (∀ (m : String) (fbs : Option (List String)),
      effectiveFallbackModels m fbs 0 = fbs) ∧
    (executeChain (fun _ => ⟨true, true, true, true⟩)
        (fun i _ _ => if i < 2 then (Outcome.retryable "rate limited" : Outcome Nat)
                      else Outcome.ok 42)
        ⟨[⟨some "user", some (Content.str "hi")⟩], false, ⟨none, []⟩⟩
        ((effectiveFallbackModels "a" (some ["b"]) 2).getD [])).1 = Except.ok 42 := by
  refine ⟨rfl, ?_, ?_⟩
  · intro m fbs
    simp [effectiveFallbackModels]
  · rfl

theorem executeAux_trace_all_retryable {α : Type} (resolve : String → Provider)
    (req : Request) (chain : List String) (nf : String → Request)
    (h : ∀ c ∈ chain, normalizeFor resolve req c = some (nf c)) :
    ∀ (i : Nat) (acc : List (String × Request)),
      executeAux resolve (fun _ _ _ => (Outcome.retryable "err" : Outcome α)) req i chain acc
        = (Except.error (OrchError.aggregate []),
           acc.reverse ++ chain.map (fun c => (c, nf c))) := by
  induction chain with
  | nil =>
    intro i acc
    simp [executeAux]
  | cons c cs ih =>
    intro i acc
    unfold executeAux
    rw [h c (List.mem_cons_self c cs)]
    dsimp only
    rw [ih (fun c2 hc2 => h c2 (List.mem_cons_of_mem c hc2)) (i + 1) ((c, nf c) :: acc)]
    simp

/-- **C3** — Normalization is independent per candidate: in the
spec-modelled orchestration, the request attempted on every candidate is
the *original* caller request normalized against that candidate's own
capability set; concretely, after a vision-lacking candidate A, candidate B
is still attempted with the original image-bearing request, whereas
re-normalizing A's stripped output against B would lose the image. -/
theorem c3_per_candidate_normalization :
    (∀ (resolve : String → Provider) (req : Request) (chain : List String)
        (nf : String → Request),
        (∀ c ∈ chain, normalizeFor resolve req c = some (nf c)) →
        (executeChain resolve (fun _ _ _ => (Outcome.retryable "err" : Outcome Nat))
            req chain).2 = chain.map (fun c => (c, nf c))) ∧
    ((executeChain indResolve (fun _ _ _ => (Outcome.retryable "err" : Outcome Nat))
        indReq ["openai/a", "openai/b"]).2.map Prod.snd
      = [⟨[⟨some "user", some (Content.str "look")⟩], false, ⟨none, []⟩⟩, indReq]) ∧
    ((normalizeFor indResolve indReq "openai/a").bind
        (fun r1 => normalizeFor indResolve r1 "openai/b") ≠ some indReq) := by
  refine ⟨?_, by decide, by decide⟩
  intro resolve req chain nf h
  cases chain with
  | nil => rfl
  | cons c cs =>
    unfold executeChain
    rw [if_neg (by simp)]
    rw [executeAux_trace_all_retryable resolve req (c :: cs) nf h 0 []]
    rfl

/-- Witness for C3's universally quantified part at a concrete chain. -/
theorem c3_per_candidate_normalization_witness :
    (executeChain indResolve (fun _ _ _ => (Outcome.retryable "err" : Outcome Nat))
        indReq ["openai/b"]).2 = ["openai/b"].map (fun c => (c, indReq)) :=
  c3_per_candidate_normalization.1 indResolve indReq ["openai/b"] (fun _ => indReq)
    (by
      intro c hc
      have hc2 : c = "openai/b" := by simpa using hc
      subst hc2
      decide)

/-- **C9** — Validation precedes any provider activity: for every call of
the embedded `create`/`acreate` in which the model identifier, a fallback
identifier, the message list, or the stream flag is malformed, the result
is a validation error and the provider's completion operation is invoked
zero times. -/
theorem c9_validation_before_any_call {α : Type} (resolve : String → Provider)
    (attempt : Nat → String → Request → Outcome α)
    (model : String) (messages : List Message) (streamArg : PyStream)
    (fallback_models : Option (List String)) (retries : Nat) (kwargs : Kwargs)
    (h : validateModelName model = false ∨ validateMessages messages = false ∨
         streamArg = PyStream.notBool ∨
         (fallback_models.getD []).all validateModelName = false) :
    ((createF resolve attempt model messages streamArg fallback_models retries kwargs).2 = 0 ∧
     ∃ e, (createF resolve attempt model messages streamArg fallback_models retries kwargs).1
        = Except.error e ∧ e.isValidation = true) ∧
    ((acreateF resolve attempt model messages streamArg fallback_models retries kwargs).2 = 0 ∧
     ∃ e, (acreateF resolve attempt model messages streamArg fallback_models retries kwargs).1
        = Except.error e ∧ e.isValidation = true) := by
  have hcr : (createF resolve attempt model messages streamArg fallback_models retries kwargs).2 = 0 ∧
      ∃ e, (createF resolve attempt model messages streamArg fallback_models retries kwargs).1
        = Except.error e ∧ e.isValidation = true := by
    unfold createF
    cases hm : validateModelName model with
    | false =>
      rw [if_pos (by simp [hm])]
      exact ⟨rfl, CreateError.invalidModel, rfl, rfl⟩
    | true =>
      rw [if_neg (by simp [hm])]
      cases hms : validateMessages messages with
      | false =>
        rw [if_pos (by simp [hms])]
        exact ⟨rfl, CreateError.invalidMessages, rfl, rfl⟩
      | true =>
        rw [if_neg (by simp [hms])]
        cases streamArg with
        | notBool => exact ⟨rfl, CreateError.invalidStream, rfl, rfl⟩
        | bool b =>
          dsimp only [validateStream]
          cases hfb : (fallback_models.getD []).all validateModelName with
          | false =>
            rw [if_pos (by simp [hfb])]
            exact ⟨rfl, CreateError.invalidModel, rfl, rfl⟩
          | true =>
            exfalso
            rcases h with h | h | h | h
            · rw [hm] at h; cases h
            · rw [hms] at h; cases h
            · cases h
            · rw [hfb] at h; cases h
  exact ⟨hcr, hcr⟩

/-- Witness for C9 at a concrete malformed model identifier (missing
separator). -/
theorem c9_validation_before_any_call_witness :
    ((createF (fun _ => (⟨true, true, true, true⟩ : Provider))
        (fun _ _ _ => (Outcome.ok 0 : Outcome Nat)) "gpt-4"
        [⟨some "user", some (Content.str "hi")⟩] (PyStream.bool false) none 0 ⟨none, []⟩).2 = 0 ∧
     ∃ e, (createF (fun _ => (⟨true, true, true, true⟩ : Provider))
        (fun _ _ _ => (Outcome.ok 0 : Outcome Nat)) "gpt-4"
        [⟨some "user", some (Content.str "hi")⟩] (PyStream.bool false) none 0 ⟨none, []⟩).1
        = Except.error e ∧ e.isValidation = true) ∧
    ((acreateF (fun _ => (⟨true, true, true, true⟩ : Provider))
        (fun _ _ _ => (Outcome.ok 0 : Outcome Nat)) "gpt-4"
        [⟨some "user", some (Content.str "hi")⟩] (PyStream.bool false) none 0 ⟨none, []⟩).2 = 0 ∧
     ∃ e, (acreateF (fun _ => (⟨true, true, true, true⟩ : Provider))
        (fun _ _ _ => (Outcome.ok 0 : Outcome Nat)) "gpt-4"
        [⟨some "user", some (Content.str "hi")⟩] (PyStream.bool false) none 0 ⟨none, []⟩).1
        = Except.error e ∧ e.isValidation = true) :=
  c9_validation_before_any_call (fun _ => (⟨true, true, true, true⟩ : Provider))
    (fun _ _ _ => (Outcome.ok 0 : Outcome Nat)) "gpt-4"
    [⟨some "user", some (Content.str "hi")⟩] (PyStream.bool false) none 0 ⟨none, []⟩
    (Or.inl (by decide))
